import Mathlib

/-!
Shallow embedding of the Anthocyanin-Image-analysis core (src/index.tsx, with
the GI index from the earlier pipeline revision in src/unnamed/part_000).
JavaScript numbers are modelled as exact rationals (ℚ); raster pixels carry
integer byte values 0..255 but all arithmetic below is stated over ℚ.
-/

/-- Raster-space point, `{x, y}` in the source. -/
structure Point where
  x : ℚ
  y : ℚ
deriving DecidableEq, Repr, Inhabited

/-- An RGB color triple (channel values are JS numbers, modelled as ℚ). -/
structure RGB where
  r : ℚ
  g : ℚ
  b : ℚ
deriving DecidableEq, Repr, Inhabited

/-- `shape.type` in the source: 'rect' | 'circle' | 'lasso'. -/
inductive ShapeType where
  | rect
  | circle
  | lasso
deriving DecidableEq, Repr, Inhabited

/-- A drawable shape: a tag plus its ordered point list.  Rect and Circle use
`points[0]` and `points[1]`; Lasso uses the whole list. -/
structure Shape where
  type : ShapeType
  points : List Point
deriving DecidableEq, Repr, Inhabited

/-- JavaScript `v || 1` on a number `v`: substitutes 1 exactly when `v` is 0
(the only falsy rational). -/
def jsOr1 (q : ℚ) : ℚ := if q = 0 then 1 else q

-- --- Geometry helpers (src/index.tsx lines 135-192) ---

/-- `isPointInRect(p, start, end)`: axis-aligned min/max test, inclusive. -/
def isPointInRect (p s e : Point) : Bool :=
  decide (p.x ≥ min s.x e.x) && decide (p.x ≤ max s.x e.x) &&
  decide (p.y ≥ min s.y e.y) && decide (p.y ≤ max s.y e.y)

/-- Squared Euclidean distance between two points. -/
def dist2 (p q : Point) : ℚ := (p.x - q.x) * (p.x - q.x) + (p.y - q.y) * (p.y - q.y)

/-- `isPointInCircle(p, center, edge)`.  The source compares
`sqrt(dist2 p center) <= sqrt(dist2 edge center)`; since the square root is
monotone on nonnegatives this is exactly the comparison of the squares,
which keeps the definition decidable over ℚ. -/
def isPointInCircle (p center edge : Point) : Bool :=
  decide (dist2 p center ≤ dist2 edge center)

/-- One iteration of the ray-casting loop in `isPointInPolygon`: `cur` is
`points[i]`, `prev` is `points[j]`.  The x-comparison only matters when the
edge straddles `p.y`, in which case `prev.y - cur.y ≠ 0`, so modelling JS
division with Lean's total `/` (where `q / 0 = 0`) is faithful. -/
def edgeCross (p cur prev : Point) : Bool :=
  (decide (cur.y > p.y) != decide (prev.y > p.y)) &&
  decide (p.x < (prev.x - cur.x) * (p.y - cur.y) / (prev.y - cur.y) + cur.x)

/-- The loop of `isPointInPolygon`: `inside` starts false and is toggled once
per crossing edge, so the final value is the exclusive-or of all crossing
tests, taken over the pairs `(points[i], points[i-1 mod n])`. -/
def rayCastLoop (p : Point) : Point → List Point → Bool
  | _, [] => false
  | prev, cur :: rest => xor (edgeCross p cur prev) (rayCastLoop p cur rest)

/-- Last element of a point list with a default (`points[points.length-1]`). -/
def lastPoint (d : Point) : List Point → Point
  | [] => d
  | a :: rest => lastPoint a rest

/-- `isPointInPolygon(p, points)`: even-odd ray casting; the first vertex is
paired with the last (`j = points.length - 1` initially). -/
def isPointInPolygon (p : Point) (pts : List Point) : Bool :=
  match pts with
  | [] => false
  | p0 :: rest => rayCastLoop p (lastPoint p0 rest) (p0 :: rest)

/-- `isPointInShape(x, y, shape)`.  Rect and Circle read `points[0]` and
`points[1]`. -/
def isPointInShape (x y : ℚ) (s : Shape) : Bool :=
  match s.type with
  | .rect => isPointInRect ⟨x, y⟩ (s.points.getD 0 default) (s.points.getD 1 default)
  | .circle => isPointInCircle ⟨x, y⟩ (s.points.getD 0 default) (s.points.getD 1 default)
  | .lasso => isPointInPolygon ⟨x, y⟩ s.points

/-- An axis-aligned bounding box, the rational part of `getBoundingBox`. -/
structure BBox where
  minX : ℚ
  maxX : ℚ
  minY : ℚ
  maxY : ℚ
deriving DecidableEq, Repr, Inhabited

/-- `getBoundingBox` for a rect shape: min/max of the two corner points. -/
def getBoundingBoxRect (a b : Point) : BBox :=
  ⟨min a.x b.x, max a.x b.x, min a.y b.y, max a.y b.y⟩

/-- `getBoundingBox` for a lasso: the source folds min/max over every vertex
starting from `±Infinity`; over a nonempty list that equals folding from the
head over the tail, and the empty list keeps the inverted infinite box,
modelled here as `none`. -/
def lassoBBox : List Point → Option BBox
  | [] => none
  | p :: ps =>
      some ⟨ps.foldl (fun a q => min a q.x) p.x,
            ps.foldl (fun a q => max a q.x) p.x,
            ps.foldl (fun a q => min a q.y) p.y,
            ps.foldl (fun a q => max a q.y) p.y⟩

/-- The pipeline's bounding-box pre-filter
`x >= bbox.minX && x <= bbox.maxX && y >= bbox.minY && y <= bbox.maxY`. -/
def inBBoxQ (x y : ℚ) (b : BBox) : Bool :=
  decide (x ≥ b.minX) && decide (x ≤ b.maxX) &&
  decide (y ≥ b.minY) && decide (y ≤ b.maxY)

/-- The pre-filter composed with `getBoundingBox`, per shape kind.  For a
circle the source box is `center ± r` with `r = sqrt (dist2 edge center)`;
`|x - cx| ≤ r` is equivalent to `(x - cx)^2 ≤ r^2`, which keeps the test
rational.  For a lasso the empty-vertex box is `[+∞, -∞]`, which contains
nothing. -/
def inShapeBBox (x y : ℚ) (s : Shape) : Bool :=
  match s.type with
  | .rect =>
      inBBoxQ x y (getBoundingBoxRect (s.points.getD 0 default) (s.points.getD 1 default))
  | .circle =>
      let c := s.points.getD 0 default
      let e := s.points.getD 1 default
      decide ((x - c.x) * (x - c.x) ≤ dist2 e c) && decide ((y - c.y) * (y - c.y) ≤ dist2 e c)
  | .lasso =>
      match lassoBBox s.points with
      | none => false
      | some b => inBBoxQ x y b

example : isPointInRect ⟨30, 30⟩ ⟨10, 10⟩ ⟨50, 50⟩ = true := by
  norm_num [isPointInRect]
example : isPointInRect ⟨60, 60⟩ ⟨10, 10⟩ ⟨50, 50⟩ = false := by
  norm_num [isPointInRect]
example : isPointInCircle ⟨4, 3⟩ ⟨0, 0⟩ ⟨3, 4⟩ = true := by
  norm_num [isPointInCircle, dist2]
example : isPointInCircle ⟨4, 4⟩ ⟨0, 0⟩ ⟨3, 4⟩ = false := by
  norm_num [isPointInCircle, dist2]
example : isPointInPolygon ⟨1, 1⟩ [⟨0, 0⟩, ⟨4, 0⟩, ⟨4, 4⟩, ⟨0, 4⟩] = true := by
  norm_num [isPointInPolygon, rayCastLoop, lastPoint, edgeCross]
example : isPointInPolygon ⟨5, 1⟩ [⟨0, 0⟩, ⟨4, 0⟩, ⟨4, 4⟩, ⟨0, 4⟩] = false := by
  norm_num [isPointInPolygon, rayCastLoop, lastPoint, edgeCross]
example : isPointInPolygon ⟨1, 1⟩ [⟨0, 0⟩] = false := by
  norm_num [isPointInPolygon, rayCastLoop, lastPoint, edgeCross]

-- --- Color calibration (src/index.tsx lines 327-380) ---

/-- The three optional reference colors of the app state:
`whitePointColor`, `blackPointColor`, `calibrationColor` (the gray slot). -/
structure CalibState where
  whitePointColor : Option RGB
  blackPointColor : Option RGB
  calibrationColor : Option RGB
deriving DecidableEq, Repr, Inhabited

/-- The per-pass calibration parameters computed before the raster scan:
mode flags, black-point minima, per-channel ranges and scale factors. -/
structure CalibParams where
  useContrastStretch : Bool
  useGrayBalance : Bool
  minC : RGB
  rangeC : RGB
  scaleC : RGB
deriving DecidableEq, Repr, Inhabited

/-- Parameter selection in `runPipeline`: contrast stretch when both white
and black references are sampled, else white balance (target 255), else gray
balance (target 128), else the defaults that leave pixels unchanged.  Each
divisor carries the JS `|| 1` guard. -/
def calibParams (st : CalibState) : CalibParams :=
  match st.whitePointColor, st.blackPointColor with
  | some w, some bl =>
      { useContrastStretch := true
        useGrayBalance := false
        minC := bl
        rangeC := ⟨jsOr1 (w.r - bl.r), jsOr1 (w.g - bl.g), jsOr1 (w.b - bl.b)⟩
        scaleC := ⟨1, 1, 1⟩ }
  | some w, none =>
      { useContrastStretch := false
        useGrayBalance := true
        minC := ⟨0, 0, 0⟩
        rangeC := ⟨255, 255, 255⟩
        scaleC := ⟨255 / jsOr1 w.r, 255 / jsOr1 w.g, 255 / jsOr1 w.b⟩ }
  | none, _ =>
      match st.calibrationColor with
      | some gray =>
          { useContrastStretch := false
            useGrayBalance := true
            minC := ⟨0, 0, 0⟩
            rangeC := ⟨255, 255, 255⟩
            scaleC := ⟨128 / jsOr1 gray.r, 128 / jsOr1 gray.g, 128 / jsOr1 gray.b⟩ }
      | none =>
          { useContrastStretch := false
            useGrayBalance := false
            minC := ⟨0, 0, 0⟩
            rangeC := ⟨255, 255, 255⟩
            scaleC := ⟨1, 1, 1⟩ }

/-- `Math.max(0, Math.min(255, v))`. -/
def clamp255 (q : ℚ) : ℚ := max 0 (min 255 q)

/-- The per-pixel calibration step of the raster scan. -/
def applyCalibration (pp : CalibParams) (c : RGB) : RGB :=
  if pp.useContrastStretch then
    ⟨clamp255 ((c.r - pp.minC.r) / pp.rangeC.r * 255),
     clamp255 ((c.g - pp.minC.g) / pp.rangeC.g * 255),
     clamp255 ((c.b - pp.minC.b) / pp.rangeC.b * 255)⟩
  else if pp.useGrayBalance then
    ⟨min 255 (c.r * pp.scaleC.r), min 255 (c.g * pp.scaleC.g), min 255 (c.b * pp.scaleC.b)⟩
  else c

/-- The single-reference correction formula exactly as the specification
words it: `corrected = min(raw × (target / max(raw_ref, 1)), 255)`.  Used to
compare the spec's claim against the code's `target / (raw_ref || 1)`. -/
def specSingleRefCorrect (target rawRef raw : ℚ) : ℚ :=
  min (raw * (target / max rawRef 1)) 255

-- --- Segmentation, classification and per-pixel indices ---

/-- Excess Green score `exg = 2*g - r - b`. -/
def exg (c : RGB) : ℚ := 2 * c.g - c.r - c.b

/-- One exclusion-zone test of the scan: bounding-box pre-filter, then exact
containment. -/
def excludedBy (x y : ℚ) (s : Shape) : Bool :=
  inShapeBBox x y s && isPointInShape x y s

/-- The classification of one (already calibrated) pixel: `isPlant` starts as
`exg > threshold` and is reset by the first matching exclusion zone. -/
def classifyPixel (threshold : ℚ) (exclusions : List Shape) (x y : ℚ) (c : RGB) : Bool :=
  decide (exg c > threshold) && !(exclusions.any (excludedBy x y))

/-- `ngrdi = (g - r) / (g + r)`, 0 when the denominator is 0. -/
def ngrdi (c : RGB) : ℚ := if c.g + c.r = 0 then 0 else (c.g - c.r) / (c.g + c.r)

/-- `maci = r / g`, 0 when `g` is 0. -/
def maci (c : RGB) : ℚ := if c.g = 0 then 0 else c.r / c.g

/-- `gi = g / (r + g + b)`, 0 when the denominator is 0 (present in the
pipeline revision in src/unnamed/part_000). -/
def gi (c : RGB) : ℚ := if c.r + c.g + c.b = 0 then 0 else c.g / (c.r + c.g + c.b)

-- --- Aggregation and finalization (src/index.tsx lines 357-478) ---

/-- The shape list of one ROI group (id, name and color play no role in the
aggregation arithmetic). -/
structure ROIGroup where
  shapes : List Shape
deriving DecidableEq, Repr, Inhabited

/-- Running per-group sums, zero-initialized at the start of every pass. -/
structure GroupStats where
  pixelCount : ℕ
  sumR : ℚ
  sumG : ℚ
  sumB : ℚ
  sumNGRDI : ℚ
  sumMACI : ℚ
deriving DecidableEq, Repr, Inhabited

/-- The all-zero stats record every pass starts from. -/
def zeroStats : GroupStats := ⟨0, 0, 0, 0, 0, 0⟩

/-- Membership of a pixel in a group: some shape passes the bounding-box
pre-filter and the exact containment test (the inner loop with `break`). -/
def pixelInGroup (x y : ℚ) (g : ROIGroup) : Bool :=
  g.shapes.any (fun s => inShapeBBox x y s && isPointInShape x y s)

/-- The statistics update applied to one matching group for one vegetation
pixel. -/
def accumStats (c : RGB) (st : GroupStats) : GroupStats :=
  { pixelCount := st.pixelCount + 1
    sumR := st.sumR + c.r
    sumG := st.sumG + c.g
    sumB := st.sumB + c.b
    sumNGRDI := st.sumNGRDI + ngrdi c
    sumMACI := st.sumMACI + maci c }

/-- The per-pixel aggregation loop: when the pixel is vegetation, every group
whose shapes contain it receives the update (the loop over `gIdx` visits all
groups; there is no break after a match). -/
def accumPixel (isPlant : Bool) (x y : ℚ) (c : RGB)
    (groups : List ROIGroup) (stats : List GroupStats) : List GroupStats :=
  if isPlant then
    (groups.zip stats).map (fun gs => if pixelInGroup x y gs.1 then accumStats c gs.2 else gs.2)
  else stats

/-- `state.regressionParams`: slope, intercept and the configured target
index (`targetIndex === 'mACI'`). -/
structure RegressionParams where
  slope : ℚ
  intercept : ℚ
  targetIsMACI : Bool
deriving DecidableEq, Repr, Inhabited

/-- A finalized group-stats record (the sums plus the derived means and the
regression estimate). -/
structure FinalStats where
  pixelCount : ℕ
  sumR : ℚ
  sumG : ℚ
  sumB : ℚ
  sumNGRDI : ℚ
  sumMACI : ℚ
  meanMACI : ℚ
  meanNGRDI : ℚ
  anthocyanin : ℚ
deriving DecidableEq, Repr, Inhabited

/-- Finalization after the scan: `count = pixelCount || 1`,
`mean = sum / count`, `anthocyanin = slope * (target mean) + intercept`. -/
def finalizeStats (rp : RegressionParams) (st : GroupStats) : FinalStats :=
  let count : ℚ := if st.pixelCount = 0 then 1 else (st.pixelCount : ℚ)
  let meanMACI := st.sumMACI / count
  let meanNGRDI := st.sumNGRDI / count
  let antho := rp.slope * (if rp.targetIsMACI then meanMACI else meanNGRDI) + rp.intercept
  ⟨st.pixelCount, st.sumR, st.sumG, st.sumB, st.sumNGRDI, st.sumMACI, meanMACI, meanNGRDI, antho⟩

-- --- Auto-tune (src/index.tsx lines 938-992) ---

/-- `parseFloat(v.toFixed(2))`: decimal rounding to 2 places, half away from
zero. -/
def toFixed2 (q : ℚ) : ℚ :=
  if q < 0 then -(((round (-q * 100) : ℤ) : ℚ) / 100) else ((round (q * 100) : ℤ) : ℚ) / 100

/-- The finalized group data `handleAutoTune` reads: pixel count and the two
index means stored in `group.stats`. -/
structure TunedGroup where
  pixelCount : ℕ
  meanMACI : ℚ
  meanNGRDI : ℚ
deriving DecidableEq, Repr, Inhabited

/-- Literature-default slope per target index (Kim & van Iersel 2023). -/
def litDefaultSlope (targetIsMACI : Bool) : ℚ := if targetIsMACI then 30.5 else 150.2

/-- Literature-default intercept per target index. -/
def litDefaultIntercept (targetIsMACI : Bool) : ℚ := if targetIsMACI then -10.5 else 5.2

/-- Fold-minimum of a list of rationals; the source folds `<` updates from
`Infinity`, which over a nonempty list equals folding `min` from the head. -/
def tuneMin (l : List ℚ) : ℚ := l.foldl min (l.headD 0)

/-- Fold-maximum, mirror of `tuneMin`. -/
def tuneMax (l : List ℚ) : ℚ := l.foldl max (l.headD 0)

/-- The group filter of `handleAutoTune`: keep groups with a nonzero pixel
count. -/
def tuneFiltered (groups : List TunedGroup) : List TunedGroup :=
  groups.filter (fun g => 0 < g.pixelCount)

/-- The target-index values `handleAutoTune` scans for min and max. -/
def tuneTargets (targetIsMACI : Bool) (groups : List TunedGroup) : List ℚ :=
  (tuneFiltered groups).map (fun g => if targetIsMACI then g.meanMACI else g.meanNGRDI)

/-- `handleAutoTune`: filter the groups with a nonzero pixel count; with
fewer than 2, or with an observed span below 0.05, set the literature
defaults; otherwise map the observed span onto [1, 40] and store the slope
and intercept rounded by `toFixed(2)`. -/
def autoTune (targetIsMACI : Bool) (groups : List TunedGroup)
    (cur : RegressionParams) : RegressionParams :=
  if (tuneFiltered groups).length < 2 then
    { cur with slope := litDefaultSlope targetIsMACI, intercept := litDefaultIntercept targetIsMACI }
  else
    let minIndex := tuneMin (tuneTargets targetIsMACI groups)
    let maxIndex := tuneMax (tuneTargets targetIsMACI groups)
    if maxIndex - minIndex < 0.05 then
      { cur with slope := litDefaultSlope targetIsMACI, intercept := litDefaultIntercept targetIsMACI }
    else
      let slope := (40 - 1) / (maxIndex - minIndex)
      let intercept := 1 - slope * minIndex
      { cur with slope := toFixed2 slope, intercept := toFixed2 intercept }

-- --- Resize drag (src/index.tsx lines 764-798) ---

/-- The four corner handles. -/
inductive Handle where
  | nw
  | ne
  | sw
  | se
deriving DecidableEq, Repr, Inhabited

/-- The corner updates of the resize branch of `handleMouseMove`: the dragged
handle moves its corner of the initial bounding box by the cumulative drag
offset; the other corner stays. -/
def resizeCorners (b : BBox) (h : Handle) (dx dy : ℚ) : BBox :=
  match h with
  | .nw => ⟨b.minX + dx, b.maxX, b.minY + dy, b.maxY⟩
  | .ne => ⟨b.minX, b.maxX + dx, b.minY + dy, b.maxY⟩
  | .sw => ⟨b.minX + dx, b.maxX, b.minY, b.maxY + dy⟩
  | .se => ⟨b.minX, b.maxX + dx, b.minY, b.maxY + dy⟩

/-- The point remapping of the resize branch: independent scale factors
`(newExtent) / (oldExtent || 1)` and the affine map
`new = newMin + (old - oldMin) * scale` applied to every initial point. -/
def resizePoints (initBBox : BBox) (initialPoints : List Point)
    (h : Handle) (dx dy : ℚ) : List Point :=
  let nb := resizeCorners initBBox h dx dy
  let scaleX := (nb.maxX - nb.minX) / jsOr1 (initBBox.maxX - initBBox.minX)
  let scaleY := (nb.maxY - nb.minY) / jsOr1 (initBBox.maxY - initBBox.minY)
  initialPoints.map (fun p =>
    ⟨nb.minX + (p.x - initBBox.minX) * scaleX, nb.minY + (p.y - initBBox.minY) * scaleY⟩)

example :
    resizePoints (getBoundingBoxRect ⟨0, 0⟩ ⟨10, 10⟩) [⟨0, 0⟩, ⟨10, 10⟩] .se 5 5 =
      [⟨0, 0⟩, ⟨15, 15⟩] := by
  norm_num [resizePoints, resizeCorners, getBoundingBoxRect, jsOr1]

example :
    (autoTune true [⟨1, 0, 0⟩, ⟨1, 7/10, 0⟩] ⟨3/2, 1/5, true⟩).slope = 5571 / 100 := by
  norm_num [autoTune, tuneFiltered, tuneTargets, tuneMin, tuneMax, toFixed2,
    litDefaultSlope, List.filter, round_eq]

example : (finalizeStats ⟨3/2, 1/5, true⟩ zeroStats).anthocyanin = 1/5 := by
  norm_num [finalizeStats, zeroStats]

-- --- Soundness of the bounding-box pre-filter ---

lemma decide_bne_cases {A B : Prop} [Decidable A] [Decidable B]
    (h : (decide A != decide B) = true) : (A ∧ ¬B) ∨ (¬A ∧ B) := by
  by_cases hA : A <;> by_cases hB : B <;> simp [hA, hB] at h ⊢

lemma interp_ge_min (xa xb t : ℚ) (h0 : 0 ≤ t) (h1 : t ≤ 1) :
    min xa xb ≤ (xb - xa) * t + xa := by
  rcases le_total xa xb with h | h
  · have hm : min xa xb = xa := min_eq_left h
    nlinarith [mul_nonneg (by linarith : (0:ℚ) ≤ xb - xa) h0]
  · have hm : min xa xb = xb := min_eq_right h
    nlinarith [mul_nonneg (by linarith : (0:ℚ) ≤ xa - xb) (by linarith : (0:ℚ) ≤ 1 - t)]

lemma interp_le_max (xa xb t : ℚ) (h0 : 0 ≤ t) (h1 : t ≤ 1) :
    (xb - xa) * t + xa ≤ max xa xb := by
  rcases le_total xa xb with h | h
  · have hm : max xa xb = xb := max_eq_right h
    nlinarith [mul_nonneg (by linarith : (0:ℚ) ≤ xb - xa) (by linarith : (0:ℚ) ≤ 1 - t)]
  · have hm : max xa xb = xa := max_eq_left h
    nlinarith [mul_nonneg (by linarith : (0:ℚ) ≤ xa - xb) h0]

/-- When an edge straddles the scan line `y = p.y`, the interpolation
parameter of the ray test lies in [0, 1]. -/
lemma straddle_t_bounds (p cur prev : Point)
    (h : (decide (cur.y > p.y) != decide (prev.y > p.y)) = true) :
    0 ≤ (p.y - cur.y) / (prev.y - cur.y) ∧ (p.y - cur.y) / (prev.y - cur.y) ≤ 1 := by
  rcases decide_bne_cases h with ⟨hc, hp⟩ | ⟨hc, hp⟩
  · have hd : prev.y - cur.y < 0 := by push_neg at hp; linarith
    have hrw : (p.y - cur.y) / (prev.y - cur.y) = (-(p.y - cur.y)) / (-(prev.y - cur.y)) := by
      rw [neg_div_neg_eq]
    constructor
    · rw [hrw]
      exact div_nonneg (by linarith) (by linarith)
    · rw [hrw]
      apply (div_le_one (by linarith : (0:ℚ) < -(prev.y - cur.y))).mpr
      push_neg at hp
      linarith
  · have hd : 0 < prev.y - cur.y := by push_neg at hc; linarith
    constructor
    · exact div_nonneg (by push_neg at hc; linarith) (by linarith)
    · exact (div_le_one hd).mpr (by linarith)

/-- The x-coordinate where a straddling edge meets the scan line stays within
the x-range of the edge's two endpoints. -/
lemma xIntersect_bounds (p cur prev : Point)
    (h : (decide (cur.y > p.y) != decide (prev.y > p.y)) = true) :
    min cur.x prev.x ≤ (prev.x - cur.x) * (p.y - cur.y) / (prev.y - cur.y) + cur.x ∧
      (prev.x - cur.x) * (p.y - cur.y) / (prev.y - cur.y) + cur.x ≤ max cur.x prev.x := by
  obtain ⟨h0, h1⟩ := straddle_t_bounds p cur prev h
  have hrw : (prev.x - cur.x) * (p.y - cur.y) / (prev.y - cur.y) + cur.x =
      (prev.x - cur.x) * ((p.y - cur.y) / (prev.y - cur.y)) + cur.x := by
    rw [mul_div_assoc]
  rw [hrw]
  exact ⟨interp_ge_min cur.x prev.x _ h0 h1, interp_le_max cur.x prev.x _ h0 h1⟩

/-- When every vertex (and the running previous vertex) is on the same side
of the scan line, no edge crosses and the loop returns false. -/
lemma rayCastLoop_false_of_const_side (p : Point) (b : Bool) :
    ∀ (l : List Point) (prev : Point), decide (prev.y > p.y) = b →
      (∀ q ∈ l, decide (q.y > p.y) = b) → rayCastLoop p prev l = false := by
  intro l
  induction l with
  | nil => intro prev _ _; rfl
  | cons cur rest ih =>
      intro prev hprev hl
      have hcur : decide (cur.y > p.y) = b := hl cur (by simp)
      have hcross : edgeCross p cur prev = false := by
        simp [edgeCross, hcur, hprev]
      rw [rayCastLoop, hcross, ih cur hcur (fun q hq => hl q (by simp [hq]))]
      rfl

/-- When the query point lies strictly right of every vertex, no edge passes
the `p.x < xIntersect` test and the loop returns false. -/
lemma rayCastLoop_false_of_right (p : Point) (M : ℚ) (hx : M < p.x) :
    ∀ (l : List Point) (prev : Point), prev.x ≤ M →
      (∀ q ∈ l, q.x ≤ M) → rayCastLoop p prev l = false := by
  intro l
  induction l with
  | nil => intro prev _ _; rfl
  | cons cur rest ih =>
      intro prev hprev hl
      have hcur : cur.x ≤ M := hl cur (by simp)
      have hcross : edgeCross p cur prev = false := by
        unfold edgeCross
        cases hs : (decide (cur.y > p.y) != decide (prev.y > p.y)) with
        | false => rfl
        | true =>
            have hxi := (xIntersect_bounds p cur prev hs).2
            have hmax : max cur.x prev.x ≤ M := max_le hcur hprev
            simp only [Bool.true_and]
            apply decide_eq_false
            linarith
      rw [rayCastLoop, hcross, ih cur hcur (fun q hq => hl q (by simp [hq]))]
      rfl

/-- When the query point lies strictly left of every vertex, every straddling
edge counts as a crossing, so the loop computes the parity of the side
changes along the closed vertex cycle. -/
lemma rayCastLoop_left_chain (p : Point) (M : ℚ) (hx : p.x < M) :
    ∀ (l : List Point) (prev : Point), M ≤ prev.x →
      (∀ q ∈ l, M ≤ q.x) →
      rayCastLoop p prev l =
        xor (decide (prev.y > p.y)) (decide ((lastPoint prev l).y > p.y)) := by
  intro l
  induction l with
  | nil =>
      intro prev _ _
      simp [rayCastLoop, lastPoint]
  | cons cur rest ih =>
      intro prev hprev hl
      have hcur : M ≤ cur.x := hl cur (by simp)
      have hcross : edgeCross p cur prev =
          xor (decide (cur.y > p.y)) (decide (prev.y > p.y)) := by
        unfold edgeCross
        cases hs : (decide (cur.y > p.y) != decide (prev.y > p.y)) with
        | false =>
            cases hc : decide (cur.y > p.y) <;> cases hp : decide (prev.y > p.y) <;>
              simp [hc, hp] at hs ⊢
        | true =>
            have hxi := (xIntersect_bounds p cur prev hs).1
            have hmin : M ≤ min cur.x prev.x := le_min hcur hprev
            have hlt : p.x < (prev.x - cur.x) * (p.y - cur.y) / (prev.y - cur.y) + cur.x := by
              linarith
            cases hc : decide (cur.y > p.y) <;> cases hp : decide (prev.y > p.y) <;>
              simp [hc, hp, hlt] at hs ⊢
      rw [rayCastLoop, hcross, ih cur hcur (fun q hq => hl q (by simp [hq]))]
      show xor _ _ = _
      have hlast : lastPoint prev (cur :: rest) = lastPoint cur rest := rfl
      rw [hlast]
      cases decide (cur.y > p.y) <;> cases decide (prev.y > p.y) <;>
        cases decide ((lastPoint cur rest).y > p.y) <;> rfl

/-- The last point of a list (with default) is the default or a member. -/
lemma lastPoint_mem (d : Point) (l : List Point) : lastPoint d l = d ∨ lastPoint d l ∈ l := by
  induction l generalizing d with
  | nil => left; rfl
  | cons a rest ih =>
      rcases ih a with h | h
      · right; rw [lastPoint, h]; simp
      · right; rw [lastPoint]; simp [h]

lemma foldlMin_le_init (v : Point → ℚ) (l : List Point) (a : ℚ) :
    l.foldl (fun acc q => min acc (v q)) a ≤ a := by
  induction l generalizing a with
  | nil => simp
  | cons q rest ih =>
      calc rest.foldl (fun acc q => min acc (v q)) (min a (v q)) ≤ min a (v q) := ih _
        _ ≤ a := min_le_left _ _

lemma foldlMin_le_mem (v : Point → ℚ) (l : List Point) (a : ℚ) (q : Point) (hq : q ∈ l) :
    l.foldl (fun acc r => min acc (v r)) a ≤ v q := by
  induction l generalizing a with
  | nil => cases hq
  | cons s rest ih =>
      rcases List.mem_cons.mp hq with h | h
      · subst h
        calc rest.foldl (fun acc r => min acc (v r)) (min a (v q)) ≤ min a (v q) :=
              foldlMin_le_init v rest _
          _ ≤ v q := min_le_right _ _
      · exact ih _ h

lemma foldlMax_ge_init (v : Point → ℚ) (l : List Point) (a : ℚ) :
    a ≤ l.foldl (fun acc q => max acc (v q)) a := by
  induction l generalizing a with
  | nil => simp
  | cons q rest ih =>
      calc a ≤ max a (v q) := le_max_left _ _
        _ ≤ rest.foldl (fun acc q => max acc (v q)) (max a (v q)) := ih _

lemma foldlMax_ge_mem (v : Point → ℚ) (l : List Point) (a : ℚ) (q : Point) (hq : q ∈ l) :
    v q ≤ l.foldl (fun acc r => max acc (v r)) a := by
  induction l generalizing a with
  | nil => cases hq
  | cons s rest ih =>
      rcases List.mem_cons.mp hq with h | h
      · subst h
        calc v q ≤ max a (v q) := le_max_right _ _
          _ ≤ rest.foldl (fun acc r => max acc (v r)) (max a (v q)) := foldlMax_ge_init v rest _
      · exact ih _ h

/-- A point found inside a polygon by the even-odd test lies inside the
polygon's vertex bounding box. -/
lemma isPointInPolygon_sound (p : Point) (pts : List Point)
    (h : isPointInPolygon p pts = true) :
    ∃ b, lassoBBox pts = some b ∧ inBBoxQ p.x p.y b = true := by
  match pts with
  | [] => simp [isPointInPolygon] at h
  | p0 :: rest =>
      refine ⟨_, rfl, ?_⟩
      set minX := rest.foldl (fun a q => min a q.x) p0.x with hminX
      set maxX := rest.foldl (fun a q => max a q.x) p0.x with hmaxX
      set minY := rest.foldl (fun a q => min a q.y) p0.y with hminY
      set maxY := rest.foldl (fun a q => max a q.y) p0.y with hmaxY
      have hminX_all : ∀ q ∈ p0 :: rest, minX ≤ q.x := by
        intro q hq
        rcases List.mem_cons.mp hq with h' | h'
        · subst h'; exact foldlMin_le_init (fun r => r.x) rest _
        · exact foldlMin_le_mem (fun r => r.x) rest _ q h'
      have hmaxX_all : ∀ q ∈ p0 :: rest, q.x ≤ maxX := by
        intro q hq
        rcases List.mem_cons.mp hq with h' | h'
        · subst h'; exact foldlMax_ge_init (fun r => r.x) rest _
        · exact foldlMax_ge_mem (fun r => r.x) rest _ q h'
      have hminY_all : ∀ q ∈ p0 :: rest, minY ≤ q.y := by
        intro q hq
        rcases List.mem_cons.mp hq with h' | h'
        · subst h'; exact foldlMin_le_init (fun r => r.y) rest _
        · exact foldlMin_le_mem (fun r => r.y) rest _ q h'
      have hmaxY_all : ∀ q ∈ p0 :: rest, q.y ≤ maxY := by
        intro q hq
        rcases List.mem_cons.mp hq with h' | h'
        · subst h'; exact foldlMax_ge_init (fun r => r.y) rest _
        · exact foldlMax_ge_mem (fun r => r.y) rest _ q h'
      have hprev_mem : lastPoint p0 rest ∈ p0 :: rest := by
        rcases lastPoint_mem p0 rest with h' | h'
        · rw [h']; simp
        · simp [h']
      have hpoly : rayCastLoop p (lastPoint p0 rest) (p0 :: rest) = true := h
      have h1 : minX ≤ p.x := by
        by_contra hc
        push_neg at hc
        have := rayCastLoop_left_chain p minX hc (p0 :: rest) (lastPoint p0 rest)
          (hminX_all _ hprev_mem) hminX_all
        rw [hpoly] at this
        have hlast : lastPoint (lastPoint p0 rest) (p0 :: rest) = lastPoint p0 rest := rfl
        rw [hlast, Bool.xor_self] at this
        simp at this
      have h2 : p.x ≤ maxX := by
        by_contra hc
        push_neg at hc
        have := rayCastLoop_false_of_right p maxX hc (p0 :: rest) (lastPoint p0 rest)
          (hmaxX_all _ hprev_mem) hmaxX_all
        rw [hpoly] at this
        simp at this
      have h3 : minY ≤ p.y := by
        by_contra hc
        push_neg at hc
        have hside : ∀ q ∈ p0 :: rest, decide (q.y > p.y) = true := by
          intro q hq
          exact decide_eq_true (by have := hminY_all q hq; linarith)
        have := rayCastLoop_false_of_const_side p true (p0 :: rest) (lastPoint p0 rest)
          (hside _ hprev_mem) hside
        rw [hpoly] at this
        simp at this
      have h4 : p.y ≤ maxY := by
        by_contra hc
        push_neg at hc
        have hside : ∀ q ∈ p0 :: rest, decide (q.y > p.y) = false := by
          intro q hq
          exact decide_eq_false (by have := hmaxY_all q hq; push_neg; linarith)
        have := rayCastLoop_false_of_const_side p false (p0 :: rest) (lastPoint p0 rest)
          (hside _ hprev_mem) hside
        rw [hpoly] at this
        simp at this
      simp [inBBoxQ, h1, h2, h3, h4]

/-- Exact shape containment implies membership in the shape's bounding box,
for every shape kind: the pre-filter of the raster scan is conservative. -/
lemma isPointInShape_sound (x y : ℚ) (s : Shape) (h : isPointInShape x y s = true) :
    inShapeBBox x y s = true := by
  obtain ⟨ty, pts⟩ := s
  cases ty with
  | rect =>
      simp only [isPointInShape, isPointInRect] at h
      simp only [inShapeBBox, inBBoxQ, getBoundingBoxRect]
      exact h
  | circle =>
      simp only [isPointInShape, isPointInCircle, dist2, decide_eq_true_eq] at h
      simp only [inShapeBBox, dist2, Bool.and_eq_true, decide_eq_true_eq]
      constructor
      · nlinarith [mul_self_nonneg (y - (pts.getD 1 default).y),
          mul_self_nonneg (y - (pts.getD 0 default).y)]
      · nlinarith [mul_self_nonneg (x - (pts.getD 1 default).x),
          mul_self_nonneg (x - (pts.getD 0 default).x)]
  | lasso =>
      simp only [isPointInShape] at h
      obtain ⟨b, hb, hbb⟩ := isPointInPolygon_sound ⟨x, y⟩ pts h
      simp only [inShapeBBox, hb, hbb]

/-- With the pre-filter being conservative, each exclusion test reduces to
exact containment. -/
lemma excludedBy_eq (x y : ℚ) (s : Shape) : excludedBy x y s = isPointInShape x y s := by
  unfold excludedBy
  cases h : isPointInShape x y s
  · simp
  · simp [isPointInShape_sound x y s h]

/-- Group membership likewise reduces to exact containment of some shape. -/
lemma pixelInGroup_eq (x y : ℚ) (g : ROIGroup) :
    pixelInGroup x y g = g.shapes.any (isPointInShape x y) := by
  unfold pixelInGroup
  congr 1
  funext s
  exact excludedBy_eq x y s

-- --- Claim theorems ---

/-- C1: after calibration, a pixel is classified as vegetation if and only if
its Excess Green score strictly exceeds the configured threshold and no
exclusion-zone shape contains its coordinates (containment per
`isPointInShape`); the bounding-box pre-filter never changes the outcome. -/
theorem C1_vegetation_classification (threshold : ℚ) (exclusions : List Shape)
    (pp : CalibParams) (x y : ℚ) (raw : RGB) :
    classifyPixel threshold exclusions x y (applyCalibration pp raw) = true ↔
      (exg (applyCalibration pp raw) > threshold ∧
        ∀ s ∈ exclusions, isPointInShape x y s = false) := by
  have hfun : excludedBy x y = isPointInShape x y := funext (excludedBy_eq x y)
  unfold classifyPixel
  rw [hfun]
  simp only [Bool.and_eq_true, decide_eq_true_eq, Bool.not_eq_true',
    List.any_eq_false, Bool.not_eq_true]

/-- C2 counterexample: with only a gray reference sampled at channel value
1/2 (a reachable mean of bytes 0 and 1), the code's scale is 128 / (1/2) =
256 and a raw value of 1 is corrected to 255, while the claimed formula
`min(raw * target / max(ref, 1), 255)` yields 128. -/
theorem C2_counterexample :
    (applyCalibration (calibParams ⟨none, none, some ⟨1/2, 1/2, 1/2⟩⟩) ⟨1, 1, 1⟩).r = 255 ∧
    specSingleRefCorrect 128 (1/2) 1 = 128 ∧
    (applyCalibration (calibParams ⟨none, none, some ⟨1/2, 1/2, 1/2⟩⟩) ⟨1, 1, 1⟩).r ≠
      specSingleRefCorrect 128 (1/2) 1 := by
  norm_num [applyCalibration, calibParams, jsOr1, specSingleRefCorrect, clamp255]

/-- C2 amended: mode priority is as claimed, but every divisor guard is the
JS `|| 1` (substitute 1 exactly when the reference channel equals 0), not
`max(ref, 1)`; a black reference without a white one is ignored, so a gray
reference is used even when black is also sampled. -/
theorem C2_calibration_modes (c : RGB) :
    (∀ w bl g0, applyCalibration (calibParams ⟨some w, some bl, g0⟩) c =
        ⟨clamp255 ((c.r - bl.r) / jsOr1 (w.r - bl.r) * 255),
         clamp255 ((c.g - bl.g) / jsOr1 (w.g - bl.g) * 255),
         clamp255 ((c.b - bl.b) / jsOr1 (w.b - bl.b) * 255)⟩) ∧
    (∀ w g0, applyCalibration (calibParams ⟨some w, none, g0⟩) c =
        ⟨min 255 (c.r * (255 / jsOr1 w.r)),
         min 255 (c.g * (255 / jsOr1 w.g)),
         min 255 (c.b * (255 / jsOr1 w.b))⟩) ∧
    (∀ gray bl0, applyCalibration (calibParams ⟨none, bl0, some gray⟩) c =
        ⟨min 255 (c.r * (128 / jsOr1 gray.r)),
         min 255 (c.g * (128 / jsOr1 gray.g)),
         min 255 (c.b * (128 / jsOr1 gray.b))⟩) ∧
    (∀ bl0, applyCalibration (calibParams ⟨none, bl0, none⟩) c = c) := by
  refine ⟨?_, ?_, ?_, ?_⟩
  · intro w bl g0
    simp [calibParams, applyCalibration]
  · intro w g0
    simp [calibParams, applyCalibration]
  · intro gray bl0
    cases bl0 <;> simp [calibParams, applyCalibration]
  · intro bl0
    cases bl0 <;> simp [calibParams, applyCalibration]

/-- C10: when only a black reference color is sampled, neither calibration
branch is selected and every pixel passes through unchanged. -/
theorem C10_black_only_identity (bl c : RGB) :
    applyCalibration (calibParams ⟨none, some bl, none⟩) c = c := by
  simp [calibParams, applyCalibration]

/-- C3: in the aggregation pass, every group whose shapes contain a
vegetation pixel receives the full update (count, R, G, B, NGRDI, mACI) —
membership is non-exclusive, not first-match-wins. -/
theorem C3_nonexclusive_membership (groups : List ROIGroup) (stats : List GroupStats)
    (x y : ℚ) (c : RGB) (i : ℕ) (hlen : stats.length = groups.length)
    (hi : i < groups.length)
    (hmem : pixelInGroup x y (groups.getD i default) = true) :
    (accumPixel true x y c groups stats).getD i default =
      accumStats c (stats.getD i default) := by
  have hi2 : i < stats.length := hlen ▸ hi
  have hzlen : i < (groups.zip stats).length := by
    simpa [List.length_zip, hlen] using hi
  unfold accumPixel
  simp only [if_pos]
  rw [List.getD_eq_getElem _ _ (by simpa using hzlen), List.getElem_map, List.getElem_zip]
  rw [List.getD_eq_getElem _ _ hi] at hmem
  rw [List.getD_eq_getElem _ _ hi2]
  simp [hmem]

/-- C3 witness: pixel (7,7) lies in both of two overlapping rect groups; the
second matching group (index 1) is also updated. -/
theorem C3_witness :
    (accumPixel true 7 7 ⟨50, 200, 50⟩
        [⟨[⟨.rect, [⟨0, 0⟩, ⟨10, 10⟩]⟩]⟩, ⟨[⟨.rect, [⟨5, 5⟩, ⟨15, 15⟩]⟩]⟩]
        [zeroStats, zeroStats]).getD 1 default =
      accumStats ⟨50, 200, 50⟩ zeroStats :=
  C3_nonexclusive_membership _ _ 7 7 ⟨50, 200, 50⟩ 1 (by simp) (by simp)
    (by norm_num [pixelInGroup, List.getD, inShapeBBox, isPointInShape, isPointInRect,
      inBBoxQ, getBoundingBoxRect, List.any])

/-- C4 counterexample: with the app's default regression parameters
(slope 1.5, intercept 0.2), a zero-count group finalizes to
`anthocyanin = intercept = 0.2 ≠ 0`, so the finalized stats are not all 0. -/
theorem C4_counterexample :
    (finalizeStats ⟨3/2, 1/5, true⟩ zeroStats).pixelCount = 0 ∧
    (finalizeStats ⟨3/2, 1/5, true⟩ zeroStats).anthocyanin ≠ 0 := by
  norm_num [finalizeStats, zeroStats]

/-- C4 amended: for a zero-count group the divisor guard yields 1
(= max(count, 1)), so no division by zero occurs; the finalized means are 0
and the pigment estimate equals the regression intercept (0 only when the
intercept is 0). -/
theorem C4_zero_count_finalize (rp : RegressionParams) (st : GroupStats)
    (h0 : st.pixelCount = 0) (hM : st.sumMACI = 0) (hN : st.sumNGRDI = 0) :
    (if st.pixelCount = 0 then (1 : ℚ) else (st.pixelCount : ℚ)) =
        max (st.pixelCount : ℚ) 1 ∧
    (finalizeStats rp st).meanMACI = 0 ∧
    (finalizeStats rp st).meanNGRDI = 0 ∧
    (finalizeStats rp st).anthocyanin = rp.intercept := by
  refine ⟨by simp [h0], ?_, ?_, ?_⟩ <;>
    cases hb : rp.targetIsMACI <;> simp [finalizeStats, h0, hM, hN, hb]

/-- C4 witness: the concrete zero-count group with default parameters. -/
theorem C4_witness :
    (if zeroStats.pixelCount = 0 then (1 : ℚ) else (zeroStats.pixelCount : ℚ)) =
        max (zeroStats.pixelCount : ℚ) 1 ∧
    (finalizeStats ⟨3/2, 1/5, true⟩ zeroStats).meanMACI = 0 ∧
    (finalizeStats ⟨3/2, 1/5, true⟩ zeroStats).meanNGRDI = 0 ∧
    (finalizeStats ⟨3/2, 1/5, true⟩ zeroStats).anthocyanin = (1/5 : ℚ) :=
  C4_zero_count_finalize ⟨3/2, 1/5, true⟩ zeroStats rfl rfl rfl

/-- C5 counterexample: groups with target means 0 and 0.7 give an exact
regression slope of (40-1)/0.7 = 390/7, but the code stores the
`toFixed(2)`-rounded value 55.71, which differs from 390/7. -/
theorem C5_counterexample :
    (autoTune true [⟨1, 0, 0⟩, ⟨1, 7/10, 0⟩] ⟨3/2, 1/5, true⟩).slope = 5571 / 100 ∧
    (40 - 1 : ℚ) / (7/10 - 0) = 390 / 7 ∧
    (autoTune true [⟨1, 0, 0⟩, ⟨1, 7/10, 0⟩] ⟨3/2, 1/5, true⟩).slope ≠
      (40 - 1 : ℚ) / (7/10 - 0) := by
  norm_num [autoTune, tuneFiltered, tuneTargets, tuneMin, tuneMax, toFixed2,
    litDefaultSlope, List.filter, round_eq]

/-- C5 amended: auto-tune behaves as claimed except that the stored slope
and intercept are the exact regression values rounded to 2 decimal places
(`toFixed(2)`); the fallback defaults differ per target index. -/
theorem C5_autoTune (t : Bool) (groups : List TunedGroup) (cur : RegressionParams) :
    ((tuneFiltered groups).length < 2 →
      autoTune t groups cur =
        { cur with slope := litDefaultSlope t, intercept := litDefaultIntercept t }) ∧
    (2 ≤ (tuneFiltered groups).length →
      tuneMax (tuneTargets t groups) - tuneMin (tuneTargets t groups) < 0.05 →
      autoTune t groups cur =
        { cur with slope := litDefaultSlope t, intercept := litDefaultIntercept t }) ∧
    (2 ≤ (tuneFiltered groups).length →
      0.05 ≤ tuneMax (tuneTargets t groups) - tuneMin (tuneTargets t groups) →
      autoTune t groups cur =
        { cur with
            slope := toFixed2 ((40 - 1) /
              (tuneMax (tuneTargets t groups) - tuneMin (tuneTargets t groups)))
            intercept := toFixed2 (1 - (40 - 1) /
              (tuneMax (tuneTargets t groups) - tuneMin (tuneTargets t groups)) *
                tuneMin (tuneTargets t groups)) }) ∧
    (litDefaultSlope true ≠ litDefaultSlope false ∧
      litDefaultIntercept true ≠ litDefaultIntercept false) := by
  refine ⟨?_, ?_, ?_, ?_, ?_⟩
  · intro h
    simp [autoTune, h]
  · intro h1 h2
    have hn : ¬((tuneFiltered groups).length < 2) := by omega
    simp [autoTune, hn, h2]
  · intro h1 h2
    have hn : ¬((tuneFiltered groups).length < 2) := by omega
    have hs : ¬(tuneMax (tuneTargets t groups) - tuneMin (tuneTargets t groups) < 0.05) :=
      not_lt.mpr h2
    simp [autoTune, hn, hs]
  · norm_num [litDefaultSlope]
  · norm_num [litDefaultIntercept]

/-- C5 witness: the data-driven branch at the concrete groups with means 0
and 0.7. -/
theorem C5_witness :
    autoTune true [⟨1, 0, 0⟩, ⟨1, 7/10, 0⟩] ⟨3/2, 1/5, true⟩ =
      { (⟨3/2, 1/5, true⟩ : RegressionParams) with
          slope := toFixed2 ((40 - 1) /
            (tuneMax (tuneTargets true [⟨1, 0, 0⟩, ⟨1, 7/10, 0⟩]) -
              tuneMin (tuneTargets true [⟨1, 0, 0⟩, ⟨1, 7/10, 0⟩])))
          intercept := toFixed2 (1 - (40 - 1) /
            (tuneMax (tuneTargets true [⟨1, 0, 0⟩, ⟨1, 7/10, 0⟩]) -
              tuneMin (tuneTargets true [⟨1, 0, 0⟩, ⟨1, 7/10, 0⟩])) *
              tuneMin (tuneTargets true [⟨1, 0, 0⟩, ⟨1, 7/10, 0⟩])) } :=
  (C5_autoTune true [⟨1, 0, 0⟩, ⟨1, 7/10, 0⟩] ⟨3/2, 1/5, true⟩).2.2.1
    (by norm_num [tuneFiltered, List.filter])
    (by norm_num [tuneTargets, tuneFiltered, tuneMin, tuneMax, List.filter])

/-- C6: the per-pixel indices carry the claimed zero-denominator guards and
quotient laws, and the pixel (R=50, G=200, B=50) yields exg = 300 (vegetation
at threshold 20), ngrdi = 0.6 and maci = 0.25. -/
theorem C6_per_pixel_indices :
    (∀ c : RGB, c.g + c.r = 0 → ngrdi c = 0) ∧
    (∀ c : RGB, c.g + c.r ≠ 0 → ngrdi c * (c.g + c.r) = c.g - c.r) ∧
    (∀ c : RGB, c.g = 0 → maci c = 0) ∧
    (∀ c : RGB, c.g ≠ 0 → maci c * c.g = c.r) ∧
    (∀ c : RGB, c.r + c.g + c.b = 0 → gi c = 0) ∧
    (∀ c : RGB, c.r + c.g + c.b ≠ 0 → gi c * (c.r + c.g + c.b) = c.g) ∧
    exg ⟨50, 200, 50⟩ = 300 ∧
    classifyPixel 20 [] 0 0 ⟨50, 200, 50⟩ = true ∧
    ngrdi ⟨50, 200, 50⟩ = 3/5 ∧
    maci ⟨50, 200, 50⟩ = 1/4 := by
  refine ⟨?_, ?_, ?_, ?_, ?_, ?_, ?_, ?_, ?_, ?_⟩
  · intro c h
    simp [ngrdi, h]
  · intro c h
    simp only [ngrdi, if_neg h]
    exact div_mul_cancel₀ _ h
  · intro c h
    simp [maci, h]
  · intro c h
    simp only [maci, if_neg h]
    exact div_mul_cancel₀ _ h
  · intro c h
    simp [gi, h]
  · intro c h
    simp only [gi, if_neg h]
    exact div_mul_cancel₀ _ h
  · norm_num [exg]
  · norm_num [classifyPixel, exg]
  · norm_num [ngrdi]
  · norm_num [maci]

/-- C6 witness: the NGRDI quotient law applied at the concrete pixel. -/
theorem C6_witness : ngrdi ⟨50, 200, 50⟩ * (200 + 50) = 200 - 50 :=
  C6_per_pixel_indices.2.1 ⟨50, 200, 50⟩ (by norm_num)

/-- C7: resizing moves only the dragged corner of the initial bounding box,
maps every initial point by the affine law with the guarded scale factors,
preserves relative positions (when the old extents are nonzero), and the
concrete Rect [(0,0),(10,10)] dragged by (5,5) at the se handle becomes
[(0,0),(15,15)] with bounding box (0,0)-(15,15) and scale 1.5. -/
theorem C7_resize_affine (b : BBox) (pts : List Point) (h : Handle) (dx dy : ℚ) :
    (resizeCorners b .nw dx dy = ⟨b.minX + dx, b.maxX, b.minY + dy, b.maxY⟩ ∧
     resizeCorners b .ne dx dy = ⟨b.minX, b.maxX + dx, b.minY + dy, b.maxY⟩ ∧
     resizeCorners b .sw dx dy = ⟨b.minX + dx, b.maxX, b.minY, b.maxY + dy⟩ ∧
     resizeCorners b .se dx dy = ⟨b.minX, b.maxX + dx, b.minY, b.maxY + dy⟩) ∧
    (resizePoints b pts h dx dy = pts.map fun p =>
        ⟨(resizeCorners b h dx dy).minX + (p.x - b.minX) *
            (((resizeCorners b h dx dy).maxX - (resizeCorners b h dx dy).minX) /
              jsOr1 (b.maxX - b.minX)),
         (resizeCorners b h dx dy).minY + (p.y - b.minY) *
            (((resizeCorners b h dx dy).maxY - (resizeCorners b h dx dy).minY) /
              jsOr1 (b.maxY - b.minY))⟩) ∧
    (b.maxX - b.minX ≠ 0 → b.maxY - b.minY ≠ 0 →
      List.Forall₂ (fun p q : Point =>
        (q.x - (resizeCorners b h dx dy).minX) * (b.maxX - b.minX) =
          (p.x - b.minX) * ((resizeCorners b h dx dy).maxX - (resizeCorners b h dx dy).minX) ∧
        (q.y - (resizeCorners b h dx dy).minY) * (b.maxY - b.minY) =
          (p.y - b.minY) * ((resizeCorners b h dx dy).maxY - (resizeCorners b h dx dy).minY))
        pts (resizePoints b pts h dx dy)) ∧
    (resizePoints (getBoundingBoxRect ⟨0, 0⟩ ⟨10, 10⟩) [⟨0, 0⟩, ⟨10, 10⟩] .se 5 5 =
        [⟨0, 0⟩, ⟨15, 15⟩] ∧
      getBoundingBoxRect ⟨0, 0⟩ ⟨15, 15⟩ = ⟨0, 15, 0, 15⟩ ∧
      (15 - 0 : ℚ) = (3/2) * (10 - 0)) := by
  refine ⟨⟨rfl, rfl, rfl, rfl⟩, rfl, ?_, ?_, ?_, by norm_num⟩
  · intro hX hY
    induction pts with
    | nil => exact List.Forall₂.nil
    | cons p rest ih =>
        refine List.Forall₂.cons ⟨?_, ?_⟩ ih
        · show ((resizeCorners b h dx dy).minX + (p.x - b.minX) *
              (((resizeCorners b h dx dy).maxX - (resizeCorners b h dx dy).minX) /
                jsOr1 (b.maxX - b.minX)) - (resizeCorners b h dx dy).minX) *
              (b.maxX - b.minX) =
            (p.x - b.minX) * ((resizeCorners b h dx dy).maxX - (resizeCorners b h dx dy).minX)
          rw [jsOr1, if_neg hX]
          field_simp
          ring
        · show ((resizeCorners b h dx dy).minY + (p.y - b.minY) *
              (((resizeCorners b h dx dy).maxY - (resizeCorners b h dx dy).minY) /
                jsOr1 (b.maxY - b.minY)) - (resizeCorners b h dx dy).minY) *
              (b.maxY - b.minY) =
            (p.y - b.minY) * ((resizeCorners b h dx dy).maxY - (resizeCorners b h dx dy).minY)
          rw [jsOr1, if_neg hY]
          field_simp
          ring
  · norm_num [resizePoints, resizeCorners, getBoundingBoxRect, jsOr1]
  · norm_num [getBoundingBoxRect]

/-- C7 witness: the relative-position law at the concrete Rect resize. -/
theorem C7_witness :
    List.Forall₂ (fun p q : Point =>
      (q.x - (resizeCorners (getBoundingBoxRect ⟨0, 0⟩ ⟨10, 10⟩) .se 5 5).minX) *
          ((getBoundingBoxRect ⟨0, 0⟩ ⟨10, 10⟩).maxX - (getBoundingBoxRect ⟨0, 0⟩ ⟨10, 10⟩).minX) =
        (p.x - (getBoundingBoxRect ⟨0, 0⟩ ⟨10, 10⟩).minX) *
          ((resizeCorners (getBoundingBoxRect ⟨0, 0⟩ ⟨10, 10⟩) .se 5 5).maxX -
            (resizeCorners (getBoundingBoxRect ⟨0, 0⟩ ⟨10, 10⟩) .se 5 5).minX) ∧
      (q.y - (resizeCorners (getBoundingBoxRect ⟨0, 0⟩ ⟨10, 10⟩) .se 5 5).minY) *
          ((getBoundingBoxRect ⟨0, 0⟩ ⟨10, 10⟩).maxY - (getBoundingBoxRect ⟨0, 0⟩ ⟨10, 10⟩).minY) =
        (p.y - (getBoundingBoxRect ⟨0, 0⟩ ⟨10, 10⟩).minY) *
          ((resizeCorners (getBoundingBoxRect ⟨0, 0⟩ ⟨10, 10⟩) .se 5 5).maxY -
            (resizeCorners (getBoundingBoxRect ⟨0, 0⟩ ⟨10, 10⟩) .se 5 5).minY))
      [⟨0, 0⟩, ⟨10, 10⟩]
      (resizePoints (getBoundingBoxRect ⟨0, 0⟩ ⟨10, 10⟩) [⟨0, 0⟩, ⟨10, 10⟩] .se 5 5) :=
  (C7_resize_affine (getBoundingBoxRect ⟨0, 0⟩ ⟨10, 10⟩) [⟨0, 0⟩, ⟨10, 10⟩] .se 5 5).2.2.1
    (by norm_num [getBoundingBoxRect]) (by norm_num [getBoundingBoxRect])

/-- C8 counterexample: a degenerate rect whose two points coincide at (5,5)
still matches the pixel (5,5), so degenerate shapes do not match zero
pixels. -/
theorem C8_counterexample :
    isPointInShape 5 5 ⟨.rect, [⟨5, 5⟩, ⟨5, 5⟩]⟩ = true := by
  norm_num [isPointInShape, isPointInRect]

/-- C8 amended: a degenerate rect or circle (coincident points) matches
exactly its one coincident point — never an error — while a lasso with at
most one vertex matches no point; the degenerate bounding boxes are the
zero-area point box (for the circle, the box test accepts only the center).
-/
theorem C8_degenerate_shapes (q : Point) (x y : ℚ) :
    (isPointInShape x y ⟨.rect, [q, q]⟩ = true ↔ (x = q.x ∧ y = q.y)) ∧
    (isPointInShape x y ⟨.circle, [q, q]⟩ = true ↔ (x = q.x ∧ y = q.y)) ∧
    (∀ pts : List Point, pts.length ≤ 1 → isPointInShape x y ⟨.lasso, pts⟩ = false) ∧
    getBoundingBoxRect q q = ⟨q.x, q.x, q.y, q.y⟩ ∧
    lassoBBox [q] = some ⟨q.x, q.x, q.y, q.y⟩ ∧
    (inShapeBBox x y ⟨.circle, [q, q]⟩ = true ↔ (x = q.x ∧ y = q.y)) := by
  refine ⟨?_, ?_, ?_, ?_, ?_, ?_⟩
  · simp only [isPointInShape, isPointInRect, List.getD_cons_zero, List.getD_cons_succ,
      min_self, max_self, Bool.and_eq_true, decide_eq_true_eq, ge_iff_le]
    constructor
    · rintro ⟨⟨⟨h1, h2⟩, h3⟩, h4⟩
      exact ⟨le_antisymm h2 h1, le_antisymm h4 h3⟩
    · rintro ⟨h1, h2⟩
      subst h1
      subst h2
      simp
  · simp only [isPointInShape, isPointInCircle, List.getD_cons_zero, List.getD_cons_succ,
      decide_eq_true_eq, dist2]
    constructor
    · intro hle
      have hx2 : (x - q.x) * (x - q.x) = 0 := by
        nlinarith [mul_self_nonneg (x - q.x), mul_self_nonneg (y - q.y)]
      have hy2 : (y - q.y) * (y - q.y) = 0 := by
        nlinarith [mul_self_nonneg (x - q.x), mul_self_nonneg (y - q.y)]
      constructor
      · have := mul_self_eq_zero.mp hx2
        linarith
      · have := mul_self_eq_zero.mp hy2
        linarith
    · rintro ⟨h1, h2⟩
      subst h1
      subst h2
      simp
  · intro pts hlen
    match pts with
    | [] => rfl
    | [a] =>
        simp [isPointInShape, isPointInPolygon, rayCastLoop, lastPoint, edgeCross]
    | a :: b :: rest => simp at hlen
  · simp [getBoundingBoxRect]
  · simp [lassoBBox]
  · simp only [inShapeBBox, List.getD_cons_zero, List.getD_cons_succ,
      Bool.and_eq_true, decide_eq_true_eq, dist2]
    constructor
    · rintro ⟨hx, hy⟩
      have hd0 : (q.x - q.x) * (q.x - q.x) + (q.y - q.y) * (q.y - q.y) = 0 := by ring
      constructor
      · have hx2 : (x - q.x) * (x - q.x) = 0 := by
          nlinarith [mul_self_nonneg (x - q.x)]
        have := mul_self_eq_zero.mp hx2
        linarith
      · have hy2 : (y - q.y) * (y - q.y) = 0 := by
          nlinarith [mul_self_nonneg (y - q.y)]
        have := mul_self_eq_zero.mp hy2
        linarith
    · rintro ⟨h1, h2⟩
      subst h1
      subst h2
      norm_num

/-- C8 witness: a one-vertex lasso matches no pixel. -/
theorem C8_witness : isPointInShape 2 3 ⟨.lasso, [⟨7, 7⟩]⟩ = false :=
  (C8_degenerate_shapes ⟨7, 7⟩ 2 3).2.2.1 [⟨7, 7⟩] (by simp)

/-- C9: circle containment is the inclusive Euclidean distance test
(`|p - anchor| ≤ |far - anchor|`, stated via the monotone square root over
ℝ); with center (0,0) and edge (3,4) the radius is 5, the point (4,3) is
contained and the point (4,4) is not. -/
theorem C9_circle_containment (p center edge : Point) :
    (isPointInCircle p center edge = true ↔
      Real.sqrt ((dist2 p center : ℚ) : ℝ) ≤ Real.sqrt ((dist2 edge center : ℚ) : ℝ)) ∧
    Real.sqrt ((dist2 ⟨3, 4⟩ ⟨0, 0⟩ : ℚ) : ℝ) = 5 ∧
    isPointInCircle ⟨4, 3⟩ ⟨0, 0⟩ ⟨3, 4⟩ = true ∧
    isPointInCircle ⟨4, 4⟩ ⟨0, 0⟩ ⟨3, 4⟩ = false := by
  refine ⟨?_, ?_, ?_, ?_⟩
  · have hpc : (0 : ℚ) ≤ dist2 p center :=
      add_nonneg (mul_self_nonneg _) (mul_self_nonneg _)
    constructor
    · intro hb
      have hq : dist2 p center ≤ dist2 edge center := of_decide_eq_true hb
      exact Real.sqrt_le_sqrt (by exact_mod_cast hq)
    · intro hs
      by_contra hb
      have hq : ¬(dist2 p center ≤ dist2 edge center) := fun hc => hb (decide_eq_true hc)
      push_neg at hq
      have hlt : ((dist2 edge center : ℚ) : ℝ) < ((dist2 p center : ℚ) : ℝ) := by
        exact_mod_cast hq
      have hec : (0 : ℝ) ≤ ((dist2 edge center : ℚ) : ℝ) := by
        have : (0 : ℚ) ≤ dist2 edge center :=
          add_nonneg (mul_self_nonneg _) (mul_self_nonneg _)
        exact_mod_cast this
      have := Real.sqrt_lt_sqrt hec hlt
      linarith
  · have h25 : dist2 ⟨3, 4⟩ ⟨0, 0⟩ = 25 := by norm_num [dist2]
    rw [h25]
    rw [show ((25 : ℚ) : ℝ) = 25 by norm_num]
    rw [show (25 : ℝ) = 5 ^ 2 by norm_num]
    exact Real.sqrt_sq (by norm_num)
  · norm_num [isPointInCircle, dist2]
  · norm_num [isPointInCircle, dist2]
